import Mathlib

/-!
Verification of the phrase-to-clip video player.

Shallow embedding of the two core components of the repository:

* the result normalizer (server route `src/app/api/videos/route.ts`):
  session-independent search-response shape sniffing, per-result video-id
  extraction, concurrent per-result URL resolution, aggregation, and the
  HTTP response produced by the `GET` handler;
* the playback/subtitle engine (client `src/app/page.tsx`, the revision
  with subtitle support): queue advance on `ended`/`error`, the
  `timeupdate` word-highlight computation, and the effects that run on a
  clip change.

JavaScript values that the code sniffs dynamically are modelled by a small
JSON value type; JS string truthiness (`a || b` skipping `''` and
`undefined`) is modelled explicitly.
-/

/-- A JSON value, as produced by `JSON.parse`.  Objects are association
lists (first binding wins on lookup, as in a JS object). -/
inductive Json where
  | jnull : Json
  | jbool : Bool → Json
  | jnum : Int → Json
  | jstr : String → Json
  | jarr : List Json → Json
  | jobj : List (String × Json) → Json

/-- Field access `obj.k` on a JS object: first binding for the key, else
`undefined` (`none`). -/
def jsGet (fields : List (String × Json)) (k : String) : Option Json :=
  (fields.find? (fun p => p.fst = k)).map Prod.snd

/-- The probe `'k' in obj && Array.isArray(obj.k)`: the field exists and is an
array; returns the array. -/
def jsGetArr (fields : List (String × Json)) (k : String) : Option (List Json) :=
  match jsGet fields k with
  | some (Json.jarr xs) => some xs
  | _ => none

/-- JS string truthiness for `string | undefined` fields: `undefined` and
`''` are falsy. -/
def truthy (a : Option String) : Option String :=
  match a with
  | some s => if s = "" then none else some s
  | none => none

/-- JS `a || b` on `string | undefined` operands. -/
def jsOr (a b : Option String) : Option String :=
  match truthy a with
  | some s => some s
  | none => b

/-! ## Playback/subtitle engine (`src/app/page.tsx`, subtitle revision) -/

/-- One entry of a subtitle's `words` array: all fields optional in the
client's `Subtitle` interface. -/
structure Word where
  text : Option String
  start : Option Int
  «end» : Option Int
deriving Repr, DecidableEq

/-- A subtitle attached to one clip. -/
structure Subtitle where
  text : String
  start : Int
  «end» : Int
  words : Option (List Word)
deriving Repr, DecidableEq

/-- The containment test of the `updateSubtitle` loop body:
`const wordStart = word.start ?? 0; const wordEnd = word.end ?? 0;
currentTimeMs >= wordStart && currentTimeMs <= wordEnd`. -/
def wordContains (w : Word) (currentTimeMs : Int) : Prop :=
  w.start.getD 0 ≤ currentTimeMs ∧ currentTimeMs ≤ w.«end».getD 0

instance (w : Word) (t : Int) : Decidable (wordContains w t) := by
  unfold wordContains; infer_instance

/-- The scan of `updateSubtitle`: walk the `words` array from position
`i`, return the index of the first word whose window contains the time,
else `-1` (the loop's initial `wordIndex`). -/
def findWordIndexFrom (words : List Word) (i : Nat) (currentTimeMs : Int) : Int :=
  match words with
  | [] => -1
  | w :: ws =>
      if wordContains w currentTimeMs then Int.ofNat i
      else findWordIndexFrom ws (i + 1) currentTimeMs

/-- The full scan, starting at index 0 as in the `for` loop. -/
def findWordIndex (words : List Word) (currentTimeMs : Int) : Int :=
  findWordIndexFrom words 0 currentTimeMs

/-- Result of one `updateSubtitle` tick: the displayed caption text and
the highlighted word index. -/
structure TickResult where
  currentSubtitle : String
  currentWordIndex : Int
deriving Repr, DecidableEq

/-- The function `updateSubtitle` (the `timeupdate` handler): always shows the clip's
full caption text; computes the word highlight only when the subtitle has
a non-empty `words` array, else `-1`. -/
def updateSubtitle (subtitle : Subtitle) (currentTimeMs : Int) : TickResult :=
  let wordIndex :=
    match subtitle.words with
    | some ws => if ws.length > 0 then findWordIndex ws currentTimeMs else -1
    | none => -1
  { currentSubtitle := subtitle.text, currentWordIndex := wordIndex }

/-- Client player state relevant to captions. -/
structure PlayerState where
  currentSubtitle : String
  currentWordIndex : Int
deriving Repr, DecidableEq

/-- The effects that run when `currentIndex` changes to `newIndex`
(the clip-load effect plus the subtitle effect's initial block): when
`subtitles[newIndex]` exists, set the caption to its text and reset the
word index to `-1`; when it does not, both effects return early and the
state is left unchanged. -/
def onClipChanged (subtitles : List Subtitle) (newIndex : Nat) (st : PlayerState) :
    PlayerState :=
  match subtitles.get? newIndex with
  | some subtitle => { currentSubtitle := subtitle.text, currentWordIndex := -1 }
  | none => st

/-- The handler `handleEnded`: advance with wraparound, `(prev + 1) % videos.length`. -/
def handleEnded (numVideos prev : Nat) : Nat :=
  (prev + 1) % numVideos

/-- The handler `handleError`: skip to next video on error, `(prev + 1) % videos.length`. -/
def handleError (numVideos prev : Nat) : Nat :=
  (prev + 1) % numVideos

/-! ## Result normalizer (`src/app/api/videos/route.ts`) -/

/-- The raw search result object, per the route's `PhraseResult`
interface: each candidate id field is `string | undefined`. -/
structure PhraseResult where
  video_id : Option String
  videoId : Option String
  mongo_id : Option String  -- the interface's `_id` field
  id : Option String
deriving Repr, DecidableEq

/-- Read the `PhraseResult` fields out of a parsed JSON result (the
route casts the raw object to `PhraseResult`, whose fields are typed
`string | undefined`; non-string field values fall outside that type). -/
def toPhraseResult (j : Json) : PhraseResult :=
  match j with
  | Json.jobj fields =>
      let strField := fun k =>
        match jsGet fields k with
        | some (Json.jstr s) => some s
        | _ => none
      { video_id := strField "video_id"
        videoId := strField "videoId"
        mongo_id := strField "_id"
        id := strField "id" }
  | _ => { video_id := none, videoId := none, mongo_id := none, id := none }

/-- The chain `result.video_id || result.videoId || result._id || result.id`,
with JS `||` skipping `undefined` and `''`; the subsequent
`if (!videoId)` also rejects a final `''`. -/
def extractVideoId (r : PhraseResult) : Option String :=
  truthy (jsOr r.video_id (jsOr r.videoId (jsOr r.mongo_id r.id)))

/-- What the route observes from one upstream HTTP call:
the fetch rejects, or it yields a response with an ok flag (2xx) and a
body whose `JSON.parse` result is `some` value or `none` (malformed). -/
inductive UpstreamResponse where
  | netFail : UpstreamResponse
  | http : Bool → Option Json → UpstreamResponse

/-- Shape sniffing of the parsed search body (`searchPhrases`, after the
JSON parse): a raw array is returned as is; an object is probed for
`results`, then `data`, then `items` (each must hold an array); anything
else yields the empty result list. -/
def parseSearchResults (data : Json) : List Json :=
  match data with
  | Json.jarr xs => xs
  | Json.jobj fields =>
      match jsGetArr fields "results" with
      | some xs => xs
      | none =>
          match jsGetArr fields "data" with
          | some xs => xs
          | none =>
              match jsGetArr fields "items" with
              | some xs => xs
              | none => []
  | _ => []

/-- The function `searchPhrases`: a rejected fetch propagates as a thrown error; a
non-2xx response throws `Search API failed: ...`; a 2xx body that fails
`JSON.parse` is caught and yields `[]`; otherwise the parsed body is
shape-sniffed. -/
def searchPhrases (resp : UpstreamResponse) : Except String (List Json) :=
  match resp with
  | UpstreamResponse.netFail => Except.error "fetch failed"
  | UpstreamResponse.http false _ => Except.error "Search API failed"
  | UpstreamResponse.http true none => Except.ok []
  | UpstreamResponse.http true (some data) => Except.ok (parseSearchResults data)

/-- URL extraction in `getVideoDetails`:
`obj.video_url || obj.videoUrl || obj.url || obj.video || obj.video_src || obj.src`
on the parsed body when it is an object, else no URL; a missing URL
yields `''`. -/
def extractVideoUrl (data : Json) : String :=
  match data with
  | Json.jobj fields =>
      let strField := fun k =>
        match jsGet fields k with
        | some (Json.jstr s) => some s
        | _ => none
      (jsOr (strField "video_url") (jsOr (strField "videoUrl") (jsOr (strField "url")
        (jsOr (strField "video") (jsOr (strField "video_src") (strField "src")))))).getD ""
  | _ => ""

/-- The function `getVideoDetails`: a rejected fetch or non-2xx response throws; a
2xx body that fails `JSON.parse` yields `''`; otherwise the URL fields
are probed (possibly yielding `''`). -/
def getVideoDetails (resp : UpstreamResponse) : Except String String :=
  match resp with
  | UpstreamResponse.netFail => Except.error "fetch failed"
  | UpstreamResponse.http false _ => Except.error "Video API failed"
  | UpstreamResponse.http true none => Except.ok ""
  | UpstreamResponse.http true (some data) => Except.ok (extractVideoUrl data)

/-- One entry of `videoPromises` in `GET`: results with no extractable id
resolve to `null`; a thrown `getVideoDetails` error is caught to `null`;
otherwise the extracted URL string (possibly `''`). `details` maps a
video id to the upstream outcome of its detail call. -/
def resolveVideo (details : String → UpstreamResponse) (r : PhraseResult) :
    Option String :=
  match extractVideoId r with
  | none => none
  | some vid =>
      match getVideoDetails (details vid) with
      | Except.error _ => none
      | Except.ok url => some url

/-- The filter `videoUrls.filter((url) => url !== null && url !== '')`. -/
def validVideos (videoUrls : List (Option String)) : List String :=
  videoUrls.filterMap (fun u =>
    match u with
    | some url => if url = "" then none else some url
    | none => none)

/-- The route's HTTP response: a status code plus the JSON payload
(`videos` on success, `error` on failure). -/
structure ApiResponse where
  status : Nat
  videos : Option (List String)
  error : Option String
deriving Repr, DecidableEq

/-- The `GET` handler: 400 when `phrase` is absent or empty (JS `!phrase`);
a thrown search error is caught into a 500 with an error message;
zero search results short-circuit to `{ videos: [] }`; otherwise each
result's video id is resolved concurrently and the non-null, non-empty
URLs are returned in result order. -/
def GET (phrase : Option String) (search : UpstreamResponse)
    (details : String → UpstreamResponse) : ApiResponse :=
  match phrase with
  | none => { status := 400, videos := none, error := some "Missing required parameter: phrase" }
  | some p =>
      if p = "" then
        { status := 400, videos := none, error := some "Missing required parameter: phrase" }
      else
        match searchPhrases search with
        | Except.error _ =>
            { status := 500, videos := none, error := some "Failed to fetch videos" }
        | Except.ok results =>
            if results.length = 0 then
              { status := 200, videos := some [], error := none }
            else
              let videoUrls := results.map (fun r => resolveVideo details (toPhraseResult r))
              { status := 200, videos := some (validVideos videoUrls), error := none }

/-- The client state that `fetchVideos` (subtitle revision) leaves after
interpreting the route's response. -/
inductive ClientState where
  | errorState : String → ClientState
  | loaded : List String → ClientState
deriving Repr, DecidableEq

/-- The client's `fetchVideos` interpreting the `/api/videos` response: a non-ok
status throws (caught into the error state with the payload's message);
an ok response with a non-empty `videos` list loads the queue; otherwise
the user-visible "no results" state. -/
def clientInterpret (resp : ApiResponse) : ClientState :=
  if 200 ≤ resp.status ∧ resp.status < 300 then
    match resp.videos with
    | some vs => if vs.length > 0 then ClientState.loaded vs
                 else ClientState.errorState "No videos found for this phrase"
    | none => ClientState.errorState "No videos found for this phrase"
  else
    ClientState.errorState ((resp.error).getD "Failed to fetch videos")

/-- One settle step of `Promise.all`: when task `i` completes, its value
is recorded in slot `i` of the result array — never appended. -/
def settleStep {α : Type} (tasks : List α) (acc : List (Option α)) (i : Nat) :
    List (Option α) :=
  match tasks.get? i with
  | some v => acc.set i (some v)
  | none => acc

/-- A model of `Promise.all` with with an explicit settle order: an array of
slots, one per task, each filled with its own task's value when that
task settles; `ord` lists the task indices in completion order. -/
def settleAll {α : Type} (tasks : List α) (ord : List Nat) : List (Option α) :=
  ord.foldl (settleStep tasks) (List.replicate tasks.length none)

/-! ## Helper lemmas -/

/-- Characterization of the `updateSubtitle` word scan from position `i`:
either no word's window contains the time and the scan returns `-1`, or
the scan returns the index of the first containing word. -/
theorem findWordIndexFrom_spec (words : List Word) (i : Nat) (t : Int) :
    (findWordIndexFrom words i t = -1 ∧
      ∀ j w, words.get? j = some w → ¬ wordContains w t) ∨
    (∃ j w, words.get? j = some w ∧
      findWordIndexFrom words i t = Int.ofNat (i + j) ∧ wordContains w t ∧
      ∀ k w', k < j → words.get? k = some w' → ¬ wordContains w' t) := by
  induction words generalizing i with
  | nil =>
    left
    refine ⟨rfl, ?_⟩
    intro j w hj
    simp [List.get?] at hj
  | cons w ws ih =>
    by_cases hw : wordContains w t
    · right
      refine ⟨0, w, rfl, ?_, hw, ?_⟩
      · simp [findWordIndexFrom, hw]
      · intro k w' hk
        omega
    · rcases ih (i + 1) with ⟨hres, hnone⟩ | ⟨j, w', hj, hres, hcont, hfirst⟩
      · left
        refine ⟨?_, ?_⟩
        · simp [findWordIndexFrom, hw, hres]
        · intro j w' hj
          cases j with
          | zero => simp at hj; subst hj; exact hw
          | succ j => exact hnone j w' hj
      · right
        refine ⟨j + 1, w', hj, ?_, hcont, ?_⟩
        · have : i + 1 + j = i + (j + 1) := by omega
          simp [findWordIndexFrom, hw, hres, this]
        · intro k w'' hk hget
          cases k with
          | zero => simp at hget; subst hget; exact hw
          | succ k => exact hfirst k w'' (by omega) hget

/-- Iterating the advance function: `k` advances from `i` land on `(i + k) % n`. -/
theorem handleEnded_iterate (n i k : Nat) (hi : i < n) :
    (handleEnded n)^[k] i = (i + k) % n := by
  induction k with
  | zero => simp [Nat.mod_eq_of_lt hi]
  | succ k ih =>
    rw [Function.iterate_succ_apply', ih, handleEnded]
    rw [Nat.mod_add_mod, Nat.add_assoc]

/-- C4: on a non-empty queue, both the `ended` and the `error` handler
advance `currentIndex` to `(currentIndex + 1) mod n`; the new index is
again in range (the advance is total, with no terminal state), and `n`
consecutive advances return the index to its starting value. -/
theorem clip_advance_cycles (n i : Nat) (hn : 0 < n) (hi : i < n) :
    (∀ j : Nat, handleError n j = handleEnded n j) ∧
    handleEnded n i = (i + 1) % n ∧
    handleEnded n i < n ∧
    (handleEnded n)^[n] i = i := by
  refine ⟨fun j => rfl, rfl, Nat.mod_lt _ hn, ?_⟩
  rw [handleEnded_iterate n i n hi, Nat.add_mod_right, Nat.mod_eq_of_lt hi]

/-- Witness for C4 at `n = 3`, `i = 1`. -/
theorem clip_advance_cycles_witness :
    (0 < 3 ∧ 1 < 3) ∧ (handleEnded 3)^[3] 1 = 1 :=
  ⟨⟨by decide, by decide⟩, (clip_advance_cycles 3 1 (by decide) (by decide)).2.2.2⟩

/-- A concrete subtitle used to instantiate theorems with hypotheses. -/
def exampleWords : List Word :=
  [{ text := some "hello", start := some 0, «end» := some 400 },
   { text := some "world", start := some 500, «end» := some 900 }]

/-- A concrete subtitle carrying `exampleWords`. -/
def exampleSubtitle : Subtitle :=
  { text := "hello world", start := 1000, «end» := 2000, words := some exampleWords }

/-- C5: on every tick, the caption shown is the subtitle's full text, and
the highlighted index is computed by a first-match scan of the word list:
either no word's `[start, end]` window contains `currentTimeMs` and the
index is `-1` (caption still shown), or the index is that of the first
word whose window contains the time — so at most one word is highlighted
and overlaps resolve in favor of the earlier list position. -/
theorem word_highlight_first_match (sub : Subtitle) (words : List Word) (t : Int)
    (hw : sub.words = some words) :
    (updateSubtitle sub t).currentSubtitle = sub.text ∧
    (((updateSubtitle sub t).currentWordIndex = -1 ∧
        ∀ j w, words.get? j = some w → ¬ wordContains w t) ∨
      (∃ j w, words.get? j = some w ∧
        (updateSubtitle sub t).currentWordIndex = Int.ofNat j ∧ wordContains w t ∧
        ∀ k w', k < j → words.get? k = some w' → ¬ wordContains w' t)) := by
  have hidx : (updateSubtitle sub t).currentWordIndex = findWordIndex words t := by
    simp only [updateSubtitle, hw]
    cases words with
    | nil => simp [findWordIndex, findWordIndexFrom]
    | cons w ws => simp
  refine ⟨rfl, ?_⟩
  rw [hidx]
  have h := findWordIndexFrom_spec words 0 t
  simpa [findWordIndex] using h

/-- Witness for C5 at a concrete subtitle and time 600 ms. -/
theorem word_highlight_first_match_witness :
    (updateSubtitle exampleSubtitle 600).currentSubtitle = exampleSubtitle.text :=
  (word_highlight_first_match exampleSubtitle exampleWords 600 rfl).1

/-- C6: the displayed caption on every tick is the clip's full caption
text, and the whole tick result is independent of the subtitle-level
`start`/`end` window — the caption is never blanked by that window. -/
theorem caption_never_blanked (sub : Subtitle) (t s' e' : Int) :
    (updateSubtitle sub t).currentSubtitle = sub.text ∧
    updateSubtitle { sub with start := s', «end» := e' } t = updateSubtitle sub t := by
  exact ⟨rfl, rfl⟩

/-- C7 counterexample: a clip change to an index with no subtitle entry
does not reset the word index — the subtitle effect returns early, so a
stale `currentWordIndex` of `0` survives the transition to clip 1. -/
theorem word_index_reset_counterexample :
    (onClipChanged [exampleSubtitle] 1
        { currentSubtitle := "hello world", currentWordIndex := 0 }).currentWordIndex ≠ -1 := by
  decide

/-- C7 (amended): on a clip change, `activeWordIndex` is reset to `-1`
exactly when the new clip carries subtitle data; when it does not, the
caption state (including the word index) is left unchanged. -/
theorem word_index_reset_on_subtitled_clip_change (subtitles : List Subtitle)
    (i : Nat) (st : PlayerState) :
    (∀ sub, subtitles.get? i = some sub →
      onClipChanged subtitles i st =
        { currentSubtitle := sub.text, currentWordIndex := -1 }) ∧
    (subtitles.get? i = none → onClipChanged subtitles i st = st) := by
  constructor
  · intro sub hsub
    unfold onClipChanged
    rw [hsub]
  · intro hnone
    unfold onClipChanged
    rw [hnone]

/-- Witness for the amended C7 at a concrete subtitled clip change. -/
theorem word_index_reset_witness :
    onClipChanged [exampleSubtitle] 0
        { currentSubtitle := "", currentWordIndex := 5 } =
      { currentSubtitle := exampleSubtitle.text, currentWordIndex := -1 } :=
  (word_index_reset_on_subtitled_clip_change [exampleSubtitle] 0
    { currentSubtitle := "", currentWordIndex := 5 }).1 exampleSubtitle rfl

/-- C10: a missing `start` or `end` bound on a word behaves exactly as
the literal bound `0` (`word.start ?? 0`, `word.end ?? 0`); a word with
both bounds missing has window `[0, 0]`, and whenever the scan highlights
such a word the clock time is `0`. -/
theorem missing_word_bounds_default_zero (txt : Option String) (s e : Option Int)
    (t : Int) (words : List Word) (j : Nat) (w : Word) :
    (wordContains { text := txt, start := none, «end» := e } t ↔
      wordContains { text := txt, start := some 0, «end» := e } t) ∧
    (wordContains { text := txt, start := s, «end» := none } t ↔
      wordContains { text := txt, start := s, «end» := some 0 } t) ∧
    (wordContains { text := txt, start := none, «end» := none } t ↔ t = 0) ∧
    (findWordIndex words t = Int.ofNat j → words.get? j = some w →
      w.start = none → w.«end» = none → t = 0) := by
  refine ⟨Iff.rfl, Iff.rfl, ?_, ?_⟩
  · unfold wordContains
    simp only [Option.getD]
    omega
  · intro hfind hget hs he
    rcases findWordIndexFrom_spec words 0 t with ⟨hres, _⟩ | ⟨j', w', hget', hres, hcont, _⟩
    · rw [findWordIndex] at hfind
      rw [hfind] at hres
      exact absurd hres (by simp [Int.ofNat])
    · rw [findWordIndex] at hfind
      rw [hfind] at hres
      have hj : j = j' := by
        have := Int.ofNat.inj hres
        omega
      subst hj
      rw [hget] at hget'
      cases hget'
      rcases hcont with ⟨h1, h2⟩
      rw [hs] at h1
      rw [he] at h2
      simp [Option.getD] at h1 h2
      omega

/-- Witness for C10: the word with both bounds missing, highlighted at
index 0, forces clock time 0. -/
theorem missing_word_bounds_witness : (0 : Int) = 0 :=
  (missing_word_bounds_default_zero (some "a") none none 0
      [{ text := some "a", start := none, «end» := none }] 0
      { text := some "a", start := none, «end» := none }).2.2.2
    rfl rfl rfl rfl

/-- Unfolding equation for `parseSearchResults` on an object. -/
theorem parseSearchResults_jobj (fields : List (String × Json)) :
    parseSearchResults (Json.jobj fields) =
      (match jsGetArr fields "results" with
        | some xs => xs
        | none =>
            match jsGetArr fields "data" with
            | some xs => xs
            | none =>
                match jsGetArr fields "items" with
                | some xs => xs
                | none => []) := rfl

/-- C3: the search-response normalizer accepts a raw array, or an object
exposing the array under `results`, `data`, or `items` — probed in that
fixed priority order, first match winning — all yielding the same result
sequence; any other shape yields the empty sequence. -/
theorem search_shape_sniffing (xs : List Json) (fields : List (String × Json))
    (j : Json) :
    parseSearchResults (Json.jarr xs) = xs ∧
    parseSearchResults (Json.jobj [("results", Json.jarr xs)]) = xs ∧
    parseSearchResults (Json.jobj [("data", Json.jarr xs)]) = xs ∧
    parseSearchResults (Json.jobj [("items", Json.jarr xs)]) = xs ∧
    (jsGetArr fields "results" = some xs →
      parseSearchResults (Json.jobj fields) = xs) ∧
    (jsGetArr fields "results" = none → jsGetArr fields "data" = some xs →
      parseSearchResults (Json.jobj fields) = xs) ∧
    (jsGetArr fields "results" = none → jsGetArr fields "data" = none →
      jsGetArr fields "items" = some xs →
      parseSearchResults (Json.jobj fields) = xs) ∧
    ((∀ ys, j ≠ Json.jarr ys) →
      (∀ fs, j = Json.jobj fs →
        jsGetArr fs "results" = none ∧ jsGetArr fs "data" = none ∧
          jsGetArr fs "items" = none) →
      parseSearchResults j = []) := by
  refine ⟨rfl, rfl, rfl, rfl, ?_, ?_, ?_, ?_⟩
  · intro h
    rw [parseSearchResults_jobj, h]
  · intro h1 h2
    rw [parseSearchResults_jobj, h1, h2]
  · intro h1 h2 h3
    rw [parseSearchResults_jobj, h1, h2, h3]
  · intro harr hobj
    cases j with
    | jarr ys => exact absurd rfl (harr ys)
    | jobj fs =>
        rcases hobj fs rfl with ⟨h1, h2, h3⟩
        rw [parseSearchResults_jobj, h1, h2, h3]
    | jnull => rfl
    | jbool b => rfl
    | jnum n => rfl
    | jstr s => rfl

/-- Witness for C3: priority of `results` over `data` on a concrete
object carrying both. -/
theorem search_shape_sniffing_witness :
    parseSearchResults
        (Json.jobj [("data", Json.jarr []), ("results", Json.jarr [Json.jnull])]) =
      [Json.jnull] :=
  (search_shape_sniffing [Json.jnull]
      [("data", Json.jarr []), ("results", Json.jarr [Json.jnull])]
      Json.jnull).2.2.2.2.1 rfl

/-- Unfolding equation for `GET` on a present phrase. -/
theorem GET_some_eq (p : String) (search : UpstreamResponse)
    (details : String → UpstreamResponse) :
    GET (some p) search details =
      (if p = "" then
        { status := 400, videos := none,
          error := some "Missing required parameter: phrase" }
      else
        match searchPhrases search with
        | Except.error _ =>
            { status := 500, videos := none, error := some "Failed to fetch videos" }
        | Except.ok results =>
            if results.length = 0 then
              { status := 200, videos := some [], error := none }
            else
              { status := 200,
                videos := some (validVideos
                  (results.map (fun r => resolveVideo details (toPhraseResult r)))),
                error := none }) := rfl

/-- On a successful search, `GET` answers 200 with the aggregated valid
URLs (also when that aggregate is empty). -/
theorem GET_search_ok (p : String) (hp : p ≠ "") (search : UpstreamResponse)
    (details : String → UpstreamResponse) (results : List Json)
    (hs : searchPhrases search = Except.ok results) :
    GET (some p) search details =
      { status := 200,
        videos := some (validVideos
          (results.map (fun r => resolveVideo details (toPhraseResult r)))),
        error := none } := by
  rw [GET_some_eq, if_neg hp, hs]
  cases results with
  | nil => rfl
  | cons r rs => rfl

/-- A concrete upstream search response holding one result. -/
def exampleSearch : UpstreamResponse :=
  UpstreamResponse.http true (some (Json.jarr [Json.jobj [("id", Json.jstr "v1")]]))

/-- A concrete detail environment resolving every id to URL `u1`. -/
def exampleDetails : String → UpstreamResponse :=
  fun _ => UpstreamResponse.http true (some (Json.jobj [("url", Json.jstr "u1")]))

/-- C1: whenever the search step succeeds, the route answers 200 — never
a server error — carrying exactly the aggregated playable URLs; when that
aggregate is empty (zero search results, or every entry absent/empty) the
client surfaces the user-visible "no results" state, and otherwise it
loads the non-empty sequence. -/
theorem empty_results_user_visible (p : String) (hp : p ≠ "")
    (search : UpstreamResponse) (details : String → UpstreamResponse)
    (results : List Json) (hs : searchPhrases search = Except.ok results) :
    (GET (some p) search details).status = 200 ∧
    (GET (some p) search details).videos =
      some (validVideos (results.map (fun r => resolveVideo details (toPhraseResult r)))) ∧
    (validVideos (results.map (fun r => resolveVideo details (toPhraseResult r))) = [] →
      clientInterpret (GET (some p) search details) =
        ClientState.errorState "No videos found for this phrase") ∧
    (validVideos (results.map (fun r => resolveVideo details (toPhraseResult r))) ≠ [] →
      clientInterpret (GET (some p) search details) =
        ClientState.loaded
          (validVideos (results.map (fun r => resolveVideo details (toPhraseResult r))))) := by
  rw [GET_search_ok p hp search details results hs]
  refine ⟨rfl, rfl, ?_, ?_⟩
  · intro hempty
    simp [clientInterpret, hempty]
  · intro hne
    simp [clientInterpret, List.length_pos, hne]

/-- Witness for C1: one result whose URL never resolves — the client
shows the "no results" state. -/
theorem empty_results_user_visible_witness :
    clientInterpret (GET (some "hello")
        (UpstreamResponse.http true (some (Json.jarr [Json.jobj [("id", Json.jstr "v1")]])))
        (fun _ => UpstreamResponse.netFail)) =
      ClientState.errorState "No videos found for this phrase" :=
  (empty_results_user_visible "hello" (by decide)
      (UpstreamResponse.http true (some (Json.jarr [Json.jobj [("id", Json.jstr "v1")]])))
      (fun _ => UpstreamResponse.netFail)
      [Json.jobj [("id", Json.jstr "v1")]] rfl).2.2.1 rfl

/-- C8 counterexample: a 2xx search response whose body fails JSON
parsing does NOT abort with a 500 — the route answers 200 with no error
(the parse failure is swallowed into an empty result set). -/
theorem malformed_search_not_500 :
    (GET (some "hello") (UpstreamResponse.http true none) exampleDetails).status = 200 ∧
    (GET (some "hello") (UpstreamResponse.http true none) exampleDetails).error = none :=
  ⟨rfl, rfl⟩

/-- C8 (amended): a non-2xx upstream search response — or a rejected
search fetch — aborts the request with a 500-equivalent carrying a
message; a 2xx search body that fails JSON parsing is instead treated as
zero results and yields a 200 with an empty videos list. -/
theorem upstream_search_failure_500 (p : String) (hp : p ≠ "")
    (details : String → UpstreamResponse) (parsed : Option Json) :
    ((GET (some p) (UpstreamResponse.http false parsed) details).status = 500 ∧
      (GET (some p) (UpstreamResponse.http false parsed) details).error.isSome = true) ∧
    (GET (some p) UpstreamResponse.netFail details).status = 500 ∧
    ((GET (some p) (UpstreamResponse.http true none) details).status = 200 ∧
      (GET (some p) (UpstreamResponse.http true none) details).videos = some []) := by
  simp only [GET_some_eq, if_neg hp]
  exact ⟨⟨rfl, rfl⟩, rfl, rfl, rfl⟩

/-- Witness for the amended C8 at a concrete non-2xx search response. -/
theorem upstream_search_failure_500_witness :
    (GET (some "hello") (UpstreamResponse.http false none) exampleDetails).status = 500 :=
  (upstream_search_failure_500 "hello" (by decide) exampleDetails none).1.1

/-- Every URL surviving the `url !== null && url !== ''` filter is a
non-empty string. -/
theorem validVideos_mem (urls : List (Option String)) (u : String)
    (hu : u ∈ validVideos urls) : u ≠ "" := by
  unfold validVideos at hu
  rw [List.mem_filterMap] at hu
  rcases hu with ⟨o, _, ho⟩
  cases o with
  | none => simp at ho
  | some url =>
      by_cases h : url = ""
      · simp [h] at ho
      · simp only [h, if_false, Option.some.injEq] at ho
        subst ho
        exact h

/-- A loaded client queue can only come from the response's `videos`
payload. -/
theorem clientInterpret_loaded (resp : ApiResponse) (vs : List String)
    (h : clientInterpret resp = ClientState.loaded vs) : resp.videos = some vs := by
  unfold clientInterpret at h
  by_cases hok : 200 ≤ resp.status ∧ resp.status < 300
  · rw [if_pos hok] at h
    cases hv : resp.videos with
    | none => rw [hv] at h; simp at h
    | some ws =>
        rw [hv] at h
        by_cases hl : ws.length > 0
        · simp only [hl, if_true] at h
          cases h
          rfl
        · simp only [hl, if_false] at h
          simp at h
  · rw [if_neg hok] at h; simp at h

/-- C9: every URL in a successful route response — and hence every URL
entering the client's playback queue — is a non-empty string: entries
resolving to an absent or empty URL are filtered out before the response
is built. -/
theorem queue_urls_nonempty (phrase : Option String) (search : UpstreamResponse)
    (details : String → UpstreamResponse) (vs : List String) :
    ((GET phrase search details).videos = some vs → ∀ u ∈ vs, u ≠ "") ∧
    (clientInterpret (GET phrase search details) = ClientState.loaded vs →
      ∀ u ∈ vs, u ≠ "") := by
  have main : (GET phrase search details).videos = some vs → ∀ u ∈ vs, u ≠ "" := by
    intro hv u hu
    cases phrase with
    | none => simp [GET] at hv
    | some p =>
        by_cases hp : p = ""
        · rw [GET_some_eq, if_pos hp] at hv; simp at hv
        · cases hs : searchPhrases search with
          | error e =>
              rw [GET_some_eq, if_neg hp, hs] at hv
              simp at hv
          | ok results =>
              rw [GET_search_ok p hp search details results hs] at hv
              simp only [Option.some.injEq] at hv
              subst hv
              exact validVideos_mem _ u hu
  exact ⟨main, fun h => main (clientInterpret_loaded _ _ h)⟩

/-- Witness for C9 at a concrete one-result search resolving to `u1`. -/
theorem queue_urls_nonempty_witness : ("u1" : String) ≠ "" :=
  (queue_urls_nonempty (some "hi") exampleSearch exampleDetails ["u1"]).1 rfl
    "u1" (by simp)

/-- A slot whose task index is out of range keeps its accumulator value
through any settle sequence. -/
theorem settleFold_get?_of_none {α : Type} (tasks : List α) (ord : List Nat)
    (acc : List (Option α)) (k : Nat) (hk : tasks.get? k = none) :
    (ord.foldl (settleStep tasks) acc).get? k = acc.get? k := by
  induction ord generalizing acc with
  | nil => rfl
  | cons i ord ih =>
      rw [List.foldl_cons, ih (settleStep tasks acc i)]
      unfold settleStep
      cases hti : tasks.get? i with
      | none => rfl
      | some v =>
          have hik : i ≠ k := by
            intro h
            rw [h, hk] at hti
            exact Option.noConfusion hti
          exact List.get?_set_ne _ _ hik

/-- Slot `k` of the settled array holds task `k`'s own value as soon as
task `k` has completed, whatever the order of completions. -/
theorem settleFold_get?_of_some {α : Type} (tasks : List α) (ord : List Nat)
    (acc : List (Option α)) (hacc : acc.length = tasks.length) (k : Nat) (v : α)
    (hk : tasks.get? k = some v) :
    (ord.foldl (settleStep tasks) acc).get? k =
      if k ∈ ord then some (some v) else acc.get? k := by
  induction ord generalizing acc with
  | nil => simp
  | cons i ord ih =>
      have hlen : (settleStep tasks acc i).length = tasks.length := by
        unfold settleStep
        cases tasks.get? i with
        | none => exact hacc
        | some w => rw [List.length_set]; exact hacc
      rw [List.foldl_cons, ih (settleStep tasks acc i) hlen]
      by_cases hm : k ∈ ord
      · rw [if_pos hm, if_pos (List.mem_cons_of_mem i hm)]
      · rw [if_neg hm]
        by_cases hik : i = k
        · subst hik
          rw [if_pos (List.mem_cons_self i ord)]
          unfold settleStep
          rw [hk]
          have hklt : i < acc.length := by
            rw [hacc]
            rw [List.get?_eq_some] at hk
            exact hk.choose
          exact List.get?_set_eq_of_lt _ hklt
        · have : ¬ k ∈ i :: ord := by
            intro hmem
            rcases List.mem_cons.mp hmem with h | h
            · exact hik h.symm
            · exact hm h
          rw [if_neg this]
          unfold settleStep
          cases tasks.get? i with
          | none => rfl
          | some w => exact List.get?_set_ne _ _ hik

/-- Order independence of `Promise.all`: when every task index settles
(in any order), the gathered array equals the tasks in their original
index order. -/
theorem settleAll_perm {α : Type} (tasks : List α) (ord : List Nat)
    (hord : ord.Perm (List.range tasks.length)) :
    settleAll tasks ord = tasks.map some := by
  apply List.ext
  intro k
  have hrep : (List.replicate tasks.length (none : Option α)).length = tasks.length :=
    List.length_replicate _ _
  cases htk : tasks.get? k with
  | some v =>
      have hklt : k < tasks.length := by
        rw [List.get?_eq_some] at htk
        exact htk.choose
      have hmem : k ∈ ord := by
        rw [hord.mem_iff, List.mem_range]
        exact hklt
      unfold settleAll
      rw [settleFold_get?_of_some tasks ord _ hrep k v htk, if_pos hmem,
        List.get?_map, htk]
      rfl
  | none =>
      have hge : tasks.length ≤ k := by
        rw [List.get?_eq_none] at htk
        exact htk
      unfold settleAll
      rw [settleFold_get?_of_none tasks ord _ k htk, List.get?_map, htk]
      simp [List.get?_eq_none, hge]

/-- The aggregation filter enumerates slots in increasing original index
order: `validVideos` is the indexed gather over `0, 1, ..., n-1`. -/
theorem validVideos_indexed (urls : List (Option String)) :
    validVideos urls =
      (List.range urls.length).filterMap (fun i =>
        (urls.get? i).bind (fun o =>
          o.bind (fun url => if url = "" then none else some url))) := by
  induction urls with
  | nil => rfl
  | cons o urls ih =>
      rw [List.length_cons, List.range_succ_eq_map, List.filterMap_cons,
        List.filterMap_map]
      have hcomp :
          ((fun i => (((o :: urls).get? i).bind (fun o =>
            o.bind (fun url => if url = "" then none else some url)))) ∘ Nat.succ) =
          (fun i => ((urls.get? i).bind (fun o =>
            o.bind (fun url => if url = "" then none else some url)))) := by
        funext i
        rfl
      rw [hcomp, ← ih]
      unfold validVideos
      rw [List.filterMap_cons]
      cases o with
      | none => rfl
      | some url =>
          by_cases hu : url = ""
          · simp [hu]
          · simp [hu]

/-- The resolver `resolveVideo` reads only the outcome of its own item's detail call:
two environments agreeing on that id resolve the item identically. -/
theorem resolveVideo_congr (r : PhraseResult) (d1 d2 : String → UpstreamResponse)
    (h : ∀ vid, extractVideoId r = some vid → d1 vid = d2 vid) :
    resolveVideo d1 r = resolveVideo d2 r := by
  unfold resolveVideo
  cases hid : extractVideoId r with
  | none => rfl
  | some vid =>
      show (match getVideoDetails (d1 vid) with
            | Except.error _ => none
            | Except.ok url => some url) =
          (match getVideoDetails (d2 vid) with
            | Except.error _ => none
            | Except.ok url => some url)
      rw [h vid hid]

/-- A failed detail lookup (rejected fetch or non-2xx) is caught into
`null` for that entry. -/
theorem resolveVideo_fail (r : PhraseResult) (d : String → UpstreamResponse)
    (vid : String) (hid : extractVideoId r = some vid)
    (hfail : d vid = UpstreamResponse.netFail ∨
      ∃ parsed, d vid = UpstreamResponse.http false parsed) :
    resolveVideo d r = none := by
  rcases hfail with h | ⟨parsed, h⟩ <;>
    simp [resolveVideo, hid, h, getVideoDetails]

/-- C2: per-item failure isolation and index-aligned gathering.  For any
batch of search results: (a) whatever order the concurrent detail lookups
complete in, the gathered array is the one in original search-result
order; (b) an entry's value depends only on its own result and its own
lookup outcome, so changing other lookups never affects it; (c) a failed
lookup (network error or non-2xx) yields `null` for that entry alone;
(d) the final video list is the in-order indexed gather of the
non-null, non-empty entries. -/
theorem lookup_isolation_and_order (results : List Json)
    (details details2 : String → UpstreamResponse) (ord : List Nat)
    (hord : ord.Perm (List.range results.length)) :
    settleAll (results.map (fun s => resolveVideo details (toPhraseResult s))) ord =
      (results.map (fun s => resolveVideo details (toPhraseResult s))).map some ∧
    (∀ i r, results.get? i = some r →
      (∀ vid, extractVideoId (toPhraseResult r) = some vid →
        details vid = details2 vid) →
      (results.map (fun s => resolveVideo details (toPhraseResult s))).get? i =
        (results.map (fun s => resolveVideo details2 (toPhraseResult s))).get? i) ∧
    (∀ i r vid, results.get? i = some r →
      extractVideoId (toPhraseResult r) = some vid →
      (details vid = UpstreamResponse.netFail ∨
        ∃ parsed, details vid = UpstreamResponse.http false parsed) →
      (results.map (fun s => resolveVideo details (toPhraseResult s))).get? i =
        some none) ∧
    validVideos (results.map (fun s => resolveVideo details (toPhraseResult s))) =
      (List.range results.length).filterMap (fun i =>
        ((results.map (fun s => resolveVideo details (toPhraseResult s))).get? i).bind
          (fun o => o.bind (fun url => if url = "" then none else some url))) := by
  refine ⟨?_, ?_, ?_, ?_⟩
  · apply settleAll_perm
    rw [List.length_map]
    exact hord
  · intro i r hr hagree
    rw [List.get?_map, List.get?_map, hr, Option.map_some', Option.map_some',
      resolveVideo_congr (toPhraseResult r) details details2 hagree]
  · intro i r vid hr hid hfail
    rw [List.get?_map, hr, Option.map_some',
      resolveVideo_fail (toPhraseResult r) details vid hid hfail]
  · rw [validVideos_indexed, List.length_map]

/-- Witness for C2: one concrete result whose detail lookup fails over
the network resolves to `null` in its own slot. -/
theorem lookup_isolation_and_order_witness :
    ([Json.jobj [("id", Json.jstr "v1")]].map
        (fun s => resolveVideo (fun _ => UpstreamResponse.netFail)
          (toPhraseResult s))).get? 0 = some none :=
  (lookup_isolation_and_order [Json.jobj [("id", Json.jstr "v1")]]
      (fun _ => UpstreamResponse.netFail) exampleDetails [0]
      (List.Perm.refl [0])).2.2.1 0 (Json.jobj [("id", Json.jstr "v1")]) "v1"
    rfl rfl (Or.inl rfl)
